import Mathlib

/-!
# Meraiku/logging: the logger factory of `logger.go`

A shallow embedding of `logger.go` (package `logging`), a thin layer over the
Go standard library package `log/slog` and over `slog-multi`.

`logger.go` returns `slog.Default()` as a `*Logger`, hands its handlers to
`slogmulti.Fanout` and puts a `Level` into the `Level` field of
`HandlerOptions`, so the names `Logger`, `Handler`, `HandlerOptions`, `Level`,
`Attr`, `New`, `SetDefault`, `NewJSONHandler`, `NewTextHandler` stand for the
`log/slog` items of the same name.  Their behaviour is embedded from `log/slog`
(and `slog-multi` for `Fanout`), as far as the factory observes it.

Conventions of the embedding:
* a Go `string` is a Lean `String` (text that is valid UTF-8);
* a Go `int` is an `Int` kept in the 64-bit range by `wrapInt64`;
* a `*Logger` is an index into the list of allocated loggers of `State`;
* the network is an input: `dial` tells which addresses can be dialled.
-/

namespace logging

/-! ## Levels (`log/slog`) -/

/-- Two's complement wrap-around of a Go `int` (64 bits). -/
def wrapInt64 (z : Int) : Int := (z + 2 ^ 63) % 2 ^ 64 - 2 ^ 63

/-- The type `slog.Level`, declared as `type Level int`. -/
abbrev Level := Int

def LevelDebug : Level := -4
def LevelInfo : Level := 0
def LevelWarn : Level := 4
def LevelError : Level := 8

/-- The function `strings.IndexAny(s, chars)`: index of the first character of
`s` that occurs in `chars`, `none` standing for `-1`. -/
def IndexAny (s chars : List Char) : Option Nat :=
  s.findIdx? (fun c => chars.contains c)

/-- The decimal digits `0` to `9`. -/
def isDigit (c : Char) : Bool := decide (48 ≤ c.toNat) && decide (c.toNat ≤ 57)

/-- The value of a string of decimal digits. -/
def digitsValue (ds : List Char) : Nat :=
  ds.foldl (fun n d => n * 10 + (d.toNat - 48)) 0

/-- The function `strconv.Atoi` on a 64-bit platform: an optional sign, then
one or more decimal digits, the value lying in the range of `int`; `none`
stands for a syntax or range error. -/
def Atoi (s : List Char) : Option Int :=
  let neg : Bool := s.head? == some '-'
  let ds : List Char := if s.head? == some '-' || s.head? == some '+' then s.tail else s
  if ds.isEmpty then none
  else if !ds.all isDigit then none
  else if neg then
    (if digitsValue ds ≤ 2 ^ 63 then some (-(digitsValue ds : Int)) else none)
  else
    (if digitsValue ds < 2 ^ 63 then some (digitsValue ds : Int) else none)

/-- The function `unicode.ToUpper` as far as `Level.parse` observes it: the
ASCII small letters, and the two other code points whose upper case is an
ASCII letter (U+0131 gives `I`, U+017F gives `S`).  Every other code point is
kept: its upper case is not an ASCII letter, and the result is only compared
with four ASCII names. -/
def toUpperRune (c : Char) : Char :=
  if 97 ≤ c.toNat ∧ c.toNat ≤ 122 then Char.ofNat (c.toNat - 32)
  else if c.toNat = 0x131 then 'I'
  else if c.toNat = 0x17F then 'S'
  else c

/-- The function `strings.ToUpper`. -/
def ToUpper (s : List Char) : List Char := s.map toUpperRune

/-- The switch of `Level.parse` over the upper-cased name. -/
def levelOfName (name : List Char) : Option Level :=
  if name = "DEBUG".data then some LevelDebug
  else if name = "INFO".data then some LevelInfo
  else if name = "WARN".data then some LevelWarn
  else if name = "ERROR".data then some LevelError
  else none

/-- The method `(*Level).parse` of `log/slog`: the receiver `l` is the level
before the call, the result is the level after it and whether an error was
returned.  A name may be followed by a signed decimal offset. -/
def Level.parse (l : Level) (s : String) : Level × Bool :=
  let i := IndexAny s.data ['+', '-']
  let name : List Char := match i with
    | some k => s.data.take k
    | none => s.data
  let offset : Option Int := match i with
    | some k => Atoi (s.data.drop k)
    | none => some 0
  match offset with
  | none => (l, true)
  | some off =>
    match levelOfName (ToUpper name) with
    | none => (l, true)
    | some base => (wrapInt64 (base + off), false)

/-- The method `(*Level).UnmarshalText`, which calls `parse` on the text. -/
def Level.UnmarshalText (l : Level) (data : String) : Level × Bool :=
  Level.parse l data

/-! ## Options (`logger.go`) -/

structure Logstash where
  Enable : Bool
  Addr : String
deriving DecidableEq, Repr

structure LoggerOptions where
  Level : Level
  IsJSON : Bool
  AddSource : Bool
  SetDefault : Bool
  Logstash : Logstash
deriving DecidableEq, Repr

/-- A `LoggerOption` is a function that updates the options in place. -/
abbrev LoggerOption := LoggerOptions → LoggerOptions

def defaultLevel : Level := LevelInfo
def defaultIsJSON : Bool := true
def defaultAddSource : Bool := true
def defaultSetDefault : Bool := true
def defaultLogstash : Bool := false

/-- The options `NewLogger` starts from.  The address of `Logstash` is not
given in the source and is the empty string. -/
def defaultOptions : LoggerOptions :=
  { Level := defaultLevel, IsJSON := defaultIsJSON, AddSource := defaultAddSource,
    SetDefault := defaultSetDefault, Logstash := { Enable := defaultLogstash, Addr := "" } }

/-- WithLevel sets the logging level for the logger. Default is LevelInfo.
The local `l` starts at zero; an error of `UnmarshalText` resets it to Info. -/
def WithLevel (level : String) : LoggerOption := fun o =>
  let r := Level.UnmarshalText 0 level
  let l : Level := if r.2 then LevelInfo else r.1
  { o with Level := l }

/-- WithJSON sets whether the logger should output JSON-formatted logs. -/
def WithJSON (isJSON : Bool) : LoggerOption := fun o =>
  { o with IsJSON := isJSON }

/-- WithSource sets whether the logger should include source information. -/
def WithSource (addSource : Bool) : LoggerOption := fun o =>
  { o with AddSource := addSource }

/-- WithSetDefault sets whether the logger should be set as the default logger. -/
def WithSetDefault (setDefault : Bool) : LoggerOption := fun o =>
  { o with SetDefault := setDefault }

/-- WithLogstash sets whether the logger should send logs to Logstash. -/
def WithLogstash (enable : Bool) (logstashAddress : String) : LoggerOption := fun o =>
  let logstash : Logstash := { Enable := enable, Addr := logstashAddress }
  { o with Logstash := logstash }

/-- The loop `for _, opt := range opts { opt(&cfg) }` of `NewLogger`. -/
def applyOptions (cfg : LoggerOptions) (opts : List LoggerOption) : LoggerOptions :=
  match opts with
  | [] => cfg
  | opt :: rest => applyOptions (opt cfg) rest

/-- The configuration `NewLogger` resolves from its options. -/
def resolve (opts : List LoggerOption) : LoggerOptions :=
  applyOptions defaultOptions opts

/-- A call of one of the five option constructors of `logger.go`. -/
inductive OptionCall where
  | level (level : String)
  | json (isJSON : Bool)
  | source (addSource : Bool)
  | setDefault (setDefault : Bool)
  | logstash (enable : Bool) (logstashAddress : String)
deriving DecidableEq, Repr

/-- The option a constructor call returns. -/
def OptionCall.toOption : OptionCall → LoggerOption
  | .level s => WithLevel s
  | .json b => WithJSON b
  | .source b => WithSource b
  | .setDefault b => WithSetDefault b
  | .logstash e a => WithLogstash e a

def OptionCall.isLevel : OptionCall → Bool
  | .level _ => true
  | _ => false

def OptionCall.isJSON : OptionCall → Bool
  | .json _ => true
  | _ => false

def OptionCall.isSource : OptionCall → Bool
  | .source _ => true
  | _ => false

def OptionCall.isSetDefault : OptionCall → Bool
  | .setDefault _ => true
  | _ => false

def OptionCall.isLogstash : OptionCall → Bool
  | .logstash _ _ => true
  | _ => false

/-! ## Handlers and loggers (`log/slog`, `slog-multi`) -/

/-- An attribute `slog.Attr`: a key and a value, the value kept as text. -/
structure Attr where
  Key : String
  Value : String
deriving DecidableEq, Repr

/-- The two fields of `slog.HandlerOptions` that `NewLogger` sets. -/
structure HandlerOptions where
  Level : Level
  AddSource : Bool
deriving DecidableEq, Repr

/-- A connection returned by `net.Dial`. -/
structure Conn where
  network : String
  address : String
deriving DecidableEq, Repr

/-- The destination of a handler: `os.Stdout` or a connection. -/
inductive Writer where
  | Stdout
  | conn (c : Conn)
deriving DecidableEq, Repr

inductive Encoding where
  | JSON
  | Text
deriving DecidableEq, Repr

/-- The handlers `NewLogger` builds: `slog.JSONHandler`, `slog.TextHandler`
(each with the attributes attached so far) and the `FanoutHandler` of
`slog-multi`. -/
inductive Handler where
  | json (w : Writer) (ho : HandlerOptions) (attrs : List Attr)
  | text (w : Writer) (ho : HandlerOptions) (attrs : List Attr)
  | fanout (hs : List Handler)

def NewJSONHandler (w : Writer) (ho : HandlerOptions) : Handler := .json w ho []

def NewTextHandler (w : Writer) (ho : HandlerOptions) : Handler := .text w ho []

/-- The function `slogmulti.Fanout`. -/
def Fanout (hs : List Handler) : Handler := .fanout hs

/-- A record `slog.Record` as a handler receives it. -/
structure Record where
  Level : Level
  Message : String
  Attrs : List Attr
deriving DecidableEq, Repr

/-- One record as written to one destination. -/
structure Line where
  dest : Writer
  enc : Encoding
  source : Bool
  level : Level
  msg : String
  attrs : List Attr
deriving DecidableEq, Repr

mutual
/-- The method `Enabled`: the built-in handlers compare the level of the
record with their minimum, the fan-out asks whether any member is enabled. -/
def Handler.Enabled : Handler → Level → Bool
  | .json _ ho _, v => decide (ho.Level ≤ v)
  | .text _ ho _, v => decide (ho.Level ≤ v)
  | .fanout hs, v => Handler.anyEnabled hs v
def Handler.anyEnabled : List Handler → Level → Bool
  | [], _ => false
  | h :: hs, v => Handler.Enabled h v || Handler.anyEnabled hs v
end

mutual
/-- The method `Handle`: a built-in handler writes the record with its own
attributes first; the fan-out hands the record to each enabled member. -/
def Handler.Handle : Handler → Record → List Line
  | .json w ho attrs, r =>
    [{ dest := w, enc := .JSON, source := ho.AddSource, level := r.Level,
       msg := r.Message, attrs := attrs ++ r.Attrs }]
  | .text w ho attrs, r =>
    [{ dest := w, enc := .Text, source := ho.AddSource, level := r.Level,
       msg := r.Message, attrs := attrs ++ r.Attrs }]
  | .fanout hs, r => Handler.handleAll hs r
def Handler.handleAll : List Handler → Record → List Line
  | [], _ => []
  | h :: hs, r =>
    (if Handler.Enabled h r.Level then Handler.Handle h r else []) ++ Handler.handleAll hs r
end

mutual
/-- The method `WithAttrs`: a built-in handler appends to its attributes, the
fan-out derives every member. -/
def Handler.WithAttrs : Handler → List Attr → Handler
  | .json w ho attrs, as => .json w ho (attrs ++ as)
  | .text w ho attrs, as => .text w ho (attrs ++ as)
  | .fanout hs, as => .fanout (Handler.withAttrsAll hs as)
def Handler.withAttrsAll : List Handler → List Attr → List Handler
  | [], _ => []
  | h :: hs, as => Handler.WithAttrs h as :: Handler.withAttrsAll hs as
end

mutual
/-- The destinations a handler writes to, in order. -/
def Handler.sinks : Handler → List (Writer × Encoding)
  | .json w _ _ => [(w, .JSON)]
  | .text w _ _ => [(w, .Text)]
  | .fanout hs => Handler.sinksAll hs
def Handler.sinksAll : List Handler → List (Writer × Encoding)
  | [] => []
  | h :: hs => Handler.sinks h ++ Handler.sinksAll hs
end

/-- The struct `slog.Logger`. -/
structure Logger where
  handler : Handler

/-- The method `(*Logger).log` behind `Info`, `Warn` and the like: nothing is
written unless the handler is enabled for the level of the record. -/
def Logger.log (l : Logger) (r : Record) : List Line :=
  if l.handler.Enabled r.Level then l.handler.Handle r else []

/-! ## The state of the process -/

/-- The part of the process `logger.go` reads and writes: the loggers
allocated so far (a `*Logger` is an index into them), the package variable of
`log/slog` holding the default logger, and the calls of `net.Dial` made. -/
structure State where
  loggers : List Logger
  defaultLogger : Nat
  dialled : List (String × String)

/-- The logger a pointer refers to, `none` for a pointer to no logger. -/
def State.deref (st : State) (p : Nat) : Option Logger := st.loggers[p]?

/-- The function `slog.New`: allocates a logger over the handler. -/
def New (st : State) (h : Handler) : Nat × State :=
  (st.loggers.length, { st with loggers := st.loggers ++ [{ handler := h }] })

/-- The function `slog.SetDefault`, as far as `Default` observes it (it also
redirects the output of the package `log`, which nothing here reads). -/
def SetDefault (st : State) (l : Nat) : State := { st with defaultLogger := l }

/-- Default returns the default logger. -/
def Default (st : State) : Nat := st.defaultLogger

/-- The method `(*Logger).With` called with one attribute: a clone of the
logger whose handler is derived with the attribute; the receiver is only read.
The result is `none` when the receiver points to no logger (the call panics). -/
def Logger.With (st : State) (l : Nat) (attr : Attr) : Option (Nat × State) :=
  match st.deref l with
  | none => none
  | some c => some (New st (c.handler.WithAttrs [attr]))

/-- How a call of `NewLogger` ends: it returns a logger, or `log.Fatalf`
prints the message and exits the process. -/
inductive Outcome where
  | returned (l : Nat)
  | fatal (msg : String)
deriving DecidableEq, Repr

/-- The tail of `NewLogger` from `l := New(h)` on. -/
def NewLogger.finish (cfg : LoggerOptions) (st : State) (h : Handler) : Outcome × State :=
  let r := New st h
  let st2 := if cfg.SetDefault then SetDefault r.2 r.1 else r.2
  (.returned r.1, st2)

/-- The handler options `ho` of `NewLogger`. -/
def NewLogger.handlerOptions (cfg : LoggerOptions) : HandlerOptions :=
  { Level := cfg.Level, AddSource := cfg.AddSource }

/-- The `switch cfg.IsJSON` of `NewLogger`: the handler on standard output. -/
def NewLogger.primary (cfg : LoggerOptions) : Handler :=
  match cfg.IsJSON with
  | true => NewJSONHandler .Stdout (NewLogger.handlerOptions cfg)
  | false => NewTextHandler .Stdout (NewLogger.handlerOptions cfg)

/-- The factory `NewLogger`.  The function `dial` is the network: the outcome
of `net.Dial(network, address)`, an error text or a connection. -/
def NewLogger (dial : String → String → Except String Conn) (opts : List LoggerOption)
    (st : State) : Outcome × State :=
  let cfg := resolve opts
  let ho := NewLogger.handlerOptions cfg
  let h := NewLogger.primary cfg
  if cfg.Logstash.Enable then
    let st1 := { st with dialled := st.dialled ++ [("udp", cfg.Logstash.Addr)] }
    match dial "udp" cfg.Logstash.Addr with
    | .error err => (.fatal ("failed to connect to logstash: " ++ err), st1)
    | .ok conn => NewLogger.finish cfg st1 (Fanout [h, NewJSONHandler (.conn conn) ho])
  else
    NewLogger.finish cfg st h

/-! ## Attribute helpers (`logger.go`) -/

/-- Modelled from the spec: the context type and `loggerFromContext` are
declared outside `logger.go`.  A context carries the logger "previously
attached to the unit-of-work context", if any. -/
structure Context where
  logger : Option Nat
deriving DecidableEq, Repr

/-- Modelled from the spec: `loggerFromContext` is declared outside
`logger.go`.  It "looks up a Logger previously attached to the unit-of-work
context; if none is attached, falls back to the process-wide default Logger". -/
def loggerFromContext (st : State) (ctx : Context) : Nat :=
  match ctx.logger with
  | some l => l
  | none => Default st

/-- L returns a logger from the context. -/
def L (st : State) (ctx : Context) : Nat := loggerFromContext st ctx

/-- WithDefaultAttrs sets default attributes for the logger: the loop
`for _, attr := range attrs { logger = logger.With(attr) }`. -/
def WithDefaultAttrs (st : State) (logger : Nat) (attrs : List Attr) : Option (Nat × State) :=
  match attrs with
  | [] => some (logger, st)
  | attr :: rest =>
    match Logger.With st logger attr with
    | none => none
    | some r => WithDefaultAttrs r.2 r.1 rest

/-- WithAttrs sets attributes for the logger: the logger of the context, then
the same loop as in `WithDefaultAttrs`, written out as in the source. -/
def WithAttrs.loop (st : State) (logger : Nat) (attrs : List Attr) : Option (Nat × State) :=
  match attrs with
  | [] => some (logger, st)
  | attr :: rest =>
    match Logger.With st logger attr with
    | none => none
    | some r => WithAttrs.loop r.2 r.1 rest

def WithAttrs (st : State) (ctx : Context) (attrs : List Attr) : Option (Nat × State) :=
  let logger := L st ctx
  WithAttrs.loop st logger attrs

/-! ## The level names as the specification words them -/

/-- ASCII lower case of a character. -/
def asciiLower (c : Char) : Char :=
  if 65 ≤ c.toNat ∧ c.toNat ≤ 90 then Char.ofNat (c.toNat + 32) else c

/-- The severity named by a text that is, "in any mix of upper and lower
case, one of the level names of the enumeration (debug, info, warn, error)". -/
def claimedName (name : List Char) : Option Level :=
  if name.map asciiLower = "debug".data then some LevelDebug
  else if name.map asciiLower = "info".data then some LevelInfo
  else if name.map asciiLower = "warn".data then some LevelWarn
  else if name.map asciiLower = "error".data then some LevelError
  else none

/-- The level the specification gives for `WithLevel(s)`: the severity named
by `s`, and Info "for every other string". -/
def claimedLevel (s : String) : Level :=
  match claimedName s.data with
  | some l => l
  | none => LevelInfo

/-! ## What a handler holds -/

mutual
/-- The attributes attached to each built-in handler inside a handler, one
chain per destination, in order. -/
def Handler.attrs : Handler → List (List Attr)
  | .json _ _ attrs => [attrs]
  | .text _ _ attrs => [attrs]
  | .fanout hs => Handler.attrsAll hs
def Handler.attrsAll : List Handler → List (List Attr)
  | [] => []
  | h :: hs => Handler.attrs h ++ Handler.attrsAll hs
end

mutual
/-- The options each built-in handler inside a handler was built with. -/
def Handler.options : Handler → List HandlerOptions
  | .json _ ho _ => [ho]
  | .text _ ho _ => [ho]
  | .fanout hs => Handler.optionsAll hs
def Handler.optionsAll : List Handler → List HandlerOptions
  | [] => []
  | h :: hs => Handler.options h ++ Handler.optionsAll hs
end

/-! ## Sample inputs -/

/-- A process in which one logger (text on standard output, level Info) has
been allocated and is the default. -/
def sampleState : State :=
  { loggers := [{ handler := NewTextHandler .Stdout { Level := LevelInfo, AddSource := false } }],
    defaultLogger := 0, dialled := [] }

/-- A network on which every dial fails. -/
def noNetwork : String → String → Except String Conn :=
  fun _ _ => .error "network is unreachable"

/-- A network on which every dial succeeds. -/
def openNetwork : String → String → Except String Conn :=
  fun network address => .ok { network := network, address := address }

/-! ## The options -/

theorem applyOptions_append (cfg : LoggerOptions) (a b : List LoggerOption) :
    applyOptions cfg (a ++ b) = applyOptions (applyOptions cfg a) b := by
  induction a generalizing cfg with
  | nil => rfl
  | cons opt rest ih => simp [applyOptions, ih]

theorem applyOptions_eq_foldl (cfg : LoggerOptions) (opts : List LoggerOption) :
    applyOptions cfg opts = opts.foldl (fun c opt => opt c) cfg := by
  induction opts generalizing cfg with
  | nil => rfl
  | cons opt rest ih => simp [applyOptions, ih]

theorem applyOptions_keeps_Level (cfg : LoggerOptions) (post : List OptionCall)
    (h : ∀ c ∈ post, c.isLevel = false) :
    (applyOptions cfg (post.map OptionCall.toOption)).Level = cfg.Level := by
  induction post generalizing cfg with
  | nil => rfl
  | cons c rest ih =>
    have hc := h c (List.mem_cons_self _ _)
    have hr : ∀ d ∈ rest, d.isLevel = false := fun d hd => h d (List.mem_cons_of_mem _ hd)
    simp only [List.map_cons, applyOptions]
    rw [ih _ hr]
    cases c <;> simp_all [OptionCall.isLevel, OptionCall.toOption, WithJSON, WithSource,
      WithSetDefault, WithLogstash]

theorem applyOptions_keeps_IsJSON (cfg : LoggerOptions) (post : List OptionCall)
    (h : ∀ c ∈ post, c.isJSON = false) :
    (applyOptions cfg (post.map OptionCall.toOption)).IsJSON = cfg.IsJSON := by
  induction post generalizing cfg with
  | nil => rfl
  | cons c rest ih =>
    have hc := h c (List.mem_cons_self _ _)
    have hr : ∀ d ∈ rest, d.isJSON = false := fun d hd => h d (List.mem_cons_of_mem _ hd)
    simp only [List.map_cons, applyOptions]
    rw [ih _ hr]
    cases c <;> simp_all [OptionCall.isJSON, OptionCall.toOption, WithLevel, WithSource,
      WithSetDefault, WithLogstash]

theorem applyOptions_keeps_AddSource (cfg : LoggerOptions) (post : List OptionCall)
    (h : ∀ c ∈ post, c.isSource = false) :
    (applyOptions cfg (post.map OptionCall.toOption)).AddSource = cfg.AddSource := by
  induction post generalizing cfg with
  | nil => rfl
  | cons c rest ih =>
    have hc := h c (List.mem_cons_self _ _)
    have hr : ∀ d ∈ rest, d.isSource = false := fun d hd => h d (List.mem_cons_of_mem _ hd)
    simp only [List.map_cons, applyOptions]
    rw [ih _ hr]
    cases c <;> simp_all [OptionCall.isSource, OptionCall.toOption, WithLevel, WithJSON,
      WithSetDefault, WithLogstash]

theorem applyOptions_keeps_SetDefault (cfg : LoggerOptions) (post : List OptionCall)
    (h : ∀ c ∈ post, c.isSetDefault = false) :
    (applyOptions cfg (post.map OptionCall.toOption)).SetDefault = cfg.SetDefault := by
  induction post generalizing cfg with
  | nil => rfl
  | cons c rest ih =>
    have hc := h c (List.mem_cons_self _ _)
    have hr : ∀ d ∈ rest, d.isSetDefault = false := fun d hd => h d (List.mem_cons_of_mem _ hd)
    simp only [List.map_cons, applyOptions]
    rw [ih _ hr]
    cases c <;> simp_all [OptionCall.isSetDefault, OptionCall.toOption, WithLevel, WithJSON,
      WithSource, WithLogstash]

theorem applyOptions_keeps_Logstash (cfg : LoggerOptions) (post : List OptionCall)
    (h : ∀ c ∈ post, c.isLogstash = false) :
    (applyOptions cfg (post.map OptionCall.toOption)).Logstash = cfg.Logstash := by
  induction post generalizing cfg with
  | nil => rfl
  | cons c rest ih =>
    have hc := h c (List.mem_cons_self _ _)
    have hr : ∀ d ∈ rest, d.isLogstash = false := fun d hd => h d (List.mem_cons_of_mem _ hd)
    simp only [List.map_cons, applyOptions]
    rw [ih _ hr]
    cases c <;> simp_all [OptionCall.isLogstash, OptionCall.toOption, WithLevel, WithJSON,
      WithSource, WithSetDefault]

theorem applyOptions_keeps {α : Type} (f : LoggerOptions → α) (cfg : LoggerOptions)
    (opts : List LoggerOption) (h : ∀ opt ∈ opts, ∀ c, f (opt c) = f c) :
    f (applyOptions cfg opts) = f cfg := by
  induction opts generalizing cfg with
  | nil => rfl
  | cons opt rest ih =>
    simp only [applyOptions]
    rw [ih _ (fun o ho => h o (List.mem_cons_of_mem _ ho))]
    exact h opt (List.mem_cons_self _ _) cfg

theorem resolve_split (pre post : List OptionCall) (c : OptionCall) :
    resolve ((pre ++ c :: post).map OptionCall.toOption)
      = applyOptions (c.toOption (applyOptions defaultOptions (pre.map OptionCall.toOption)))
          (post.map OptionCall.toOption) := by
  simp [resolve, applyOptions_append, applyOptions]

/-- C2: `NewLogger` resolves its options by a left fold over the defaults, and
for each of the five option constructors the resolved field is the value of
the last call of that constructor in the list, whatever stands before it. -/
theorem C2_last_option_wins (pre post : List OptionCall) :
    (∀ opts : List LoggerOption,
        resolve opts = opts.foldl (fun cfg opt => opt cfg) defaultOptions) ∧
    (∀ s o, (∀ c ∈ post, c.isLevel = false) →
        (resolve ((pre ++ .level s :: post).map OptionCall.toOption)).Level
          = (WithLevel s o).Level) ∧
    (∀ b, (∀ c ∈ post, c.isJSON = false) →
        (resolve ((pre ++ .json b :: post).map OptionCall.toOption)).IsJSON = b) ∧
    (∀ b, (∀ c ∈ post, c.isSource = false) →
        (resolve ((pre ++ .source b :: post).map OptionCall.toOption)).AddSource = b) ∧
    (∀ b, (∀ c ∈ post, c.isSetDefault = false) →
        (resolve ((pre ++ .setDefault b :: post).map OptionCall.toOption)).SetDefault = b) ∧
    (∀ e a, (∀ c ∈ post, c.isLogstash = false) →
        (resolve ((pre ++ .logstash e a :: post).map OptionCall.toOption)).Logstash
          = { Enable := e, Addr := a }) := by
  refine ⟨fun opts => applyOptions_eq_foldl _ _, ?_, ?_, ?_, ?_, ?_⟩
  · intro s o h
    rw [resolve_split, applyOptions_keeps_Level _ _ h]
    rfl
  · intro b h
    rw [resolve_split, applyOptions_keeps_IsJSON _ _ h]
    rfl
  · intro b h
    rw [resolve_split, applyOptions_keeps_AddSource _ _ h]
    rfl
  · intro b h
    rw [resolve_split, applyOptions_keeps_SetDefault _ _ h]
    rfl
  · intro e a h
    rw [resolve_split, applyOptions_keeps_Logstash _ _ h]
    rfl

/-- The options `WithJSON(true), WithLevel("debug"), WithJSON(false),
WithLevel("error"), WithSource(false)`: the later value of each wins. -/
theorem C2_last_option_wins_witness :
    (resolve (([OptionCall.json true, OptionCall.level "debug"] ++ OptionCall.json false ::
        [OptionCall.level "error", OptionCall.source false]).map OptionCall.toOption)).IsJSON
      = false ∧
    (resolve (([OptionCall.json true, OptionCall.level "debug", OptionCall.json false] ++
        OptionCall.level "error" :: [OptionCall.source false]).map OptionCall.toOption)).Level
      = (WithLevel "error" defaultOptions).Level ∧
    (WithLevel "error" defaultOptions).Level = LevelError :=
  ⟨(C2_last_option_wins [OptionCall.json true, OptionCall.level "debug"]
      [OptionCall.level "error", OptionCall.source false]).2.2.1 false (by decide),
   (C2_last_option_wins [OptionCall.json true, OptionCall.level "debug", OptionCall.json false]
      [OptionCall.source false]).2.1 "error" defaultOptions (by decide),
   by decide⟩

/-- C3: with no options the configuration is the defaults (level Info, JSON
encoding, source capture on, installed as default, Logstash disabled), and for
every option list a field that no option of the list sets keeps its default:
both for lists of calls of the five constructors and for lists of arbitrary
option functions that leave the field as it is. -/
theorem C3_defaults (opts : List OptionCall) (fs : List LoggerOption) :
    resolve [] = { Level := LevelInfo, IsJSON := true, AddSource := true, SetDefault := true,
                   Logstash := { Enable := false, Addr := "" } } ∧
    ((∀ c ∈ opts, c.isLevel = false) →
        (resolve (opts.map OptionCall.toOption)).Level = LevelInfo) ∧
    ((∀ c ∈ opts, c.isJSON = false) →
        (resolve (opts.map OptionCall.toOption)).IsJSON = true) ∧
    ((∀ c ∈ opts, c.isSource = false) →
        (resolve (opts.map OptionCall.toOption)).AddSource = true) ∧
    ((∀ c ∈ opts, c.isSetDefault = false) →
        (resolve (opts.map OptionCall.toOption)).SetDefault = true) ∧
    ((∀ c ∈ opts, c.isLogstash = false) →
        (resolve (opts.map OptionCall.toOption)).Logstash.Enable = false) ∧
    ((∀ f ∈ fs, ∀ c, (f c).Level = c.Level) → (resolve fs).Level = LevelInfo) ∧
    ((∀ f ∈ fs, ∀ c, (f c).IsJSON = c.IsJSON) → (resolve fs).IsJSON = true) ∧
    ((∀ f ∈ fs, ∀ c, (f c).AddSource = c.AddSource) → (resolve fs).AddSource = true) ∧
    ((∀ f ∈ fs, ∀ c, (f c).SetDefault = c.SetDefault) → (resolve fs).SetDefault = true) ∧
    ((∀ f ∈ fs, ∀ c, (f c).Logstash = c.Logstash) → (resolve fs).Logstash.Enable = false) := by
  refine ⟨rfl, ?_, ?_, ?_, ?_, ?_, ?_, ?_, ?_, ?_, ?_⟩
  · intro h
    exact applyOptions_keeps_Level _ _ h
  · intro h
    exact applyOptions_keeps_IsJSON _ _ h
  · intro h
    exact applyOptions_keeps_AddSource _ _ h
  · intro h
    exact applyOptions_keeps_SetDefault _ _ h
  · intro h
    rw [resolve, applyOptions_keeps_Logstash _ _ h]
    rfl
  · intro h
    exact applyOptions_keeps (fun c => c.Level) _ _ h
  · intro h
    exact applyOptions_keeps (fun c => c.IsJSON) _ _ h
  · intro h
    exact applyOptions_keeps (fun c => c.AddSource) _ _ h
  · intro h
    exact applyOptions_keeps (fun c => c.SetDefault) _ _ h
  · intro h
    rw [resolve, applyOptions_keeps (fun c => c.Logstash) _ _ h]
    rfl

/-- The options `WithLevel("debug"), WithSource(false)` leave the encoding,
the installation as default and Logstash at their defaults. -/
theorem C3_defaults_witness :
    (resolve ([OptionCall.level "debug", OptionCall.source false].map
      OptionCall.toOption)).IsJSON = true ∧
    (resolve ([OptionCall.level "debug", OptionCall.source false].map
      OptionCall.toOption)).SetDefault = true ∧
    (resolve ([OptionCall.level "debug", OptionCall.source false].map
      OptionCall.toOption)).Logstash.Enable = false ∧
    (resolve [WithLevel "debug", WithSource false]).IsJSON = true :=
  ⟨(C3_defaults [OptionCall.level "debug", OptionCall.source false] []).2.2.1 (by decide),
   (C3_defaults [OptionCall.level "debug", OptionCall.source false] []).2.2.2.2.1 (by decide),
   (C3_defaults [OptionCall.level "debug", OptionCall.source false] []).2.2.2.2.2.1 (by decide),
   (C3_defaults [] [WithLevel "debug", WithSource false]).2.2.2.2.2.2.2.1
     (by
       intro f hf c
       simp only [List.mem_cons, List.mem_singleton, List.not_mem_nil, or_false] at hf
       rcases hf with hf | hf <;> subst hf <;> rfl)⟩

/-- C8: each option changes one field of the options and keeps the others:
`WithJSON` only `IsJSON`, `WithSource` only `AddSource`, `WithSetDefault` only
`SetDefault`, `WithLogstash` only `Logstash` (the address stored as given,
also when disabled), `WithLevel` only `Level`. -/
theorem C8_one_field (o : LoggerOptions) :
    (∀ b, WithJSON b o = { o with IsJSON := b }) ∧
    (∀ b, WithSource b o = { o with AddSource := b }) ∧
    (∀ b, WithSetDefault b o = { o with SetDefault := b }) ∧
    (∀ e a, WithLogstash e a o = { o with Logstash := { Enable := e, Addr := a } }) ∧
    (∀ s, (WithLevel s o).IsJSON = o.IsJSON ∧ (WithLevel s o).AddSource = o.AddSource ∧
          (WithLevel s o).SetDefault = o.SetDefault ∧ (WithLevel s o).Logstash = o.Logstash) ∧
    (∀ b, (WithJSON b o).Level = o.Level ∧ (WithJSON b o).AddSource = o.AddSource ∧
          (WithJSON b o).SetDefault = o.SetDefault ∧ (WithJSON b o).Logstash = o.Logstash ∧
          (WithJSON b o).IsJSON = b) ∧
    (∀ b, (WithSource b o).Level = o.Level ∧ (WithSource b o).IsJSON = o.IsJSON ∧
          (WithSource b o).SetDefault = o.SetDefault ∧ (WithSource b o).Logstash = o.Logstash ∧
          (WithSource b o).AddSource = b) ∧
    (∀ b, (WithSetDefault b o).Level = o.Level ∧ (WithSetDefault b o).IsJSON = o.IsJSON ∧
          (WithSetDefault b o).AddSource = o.AddSource ∧
          (WithSetDefault b o).Logstash = o.Logstash ∧ (WithSetDefault b o).SetDefault = b) ∧
    (∀ e a, (WithLogstash e a o).Level = o.Level ∧ (WithLogstash e a o).IsJSON = o.IsJSON ∧
          (WithLogstash e a o).AddSource = o.AddSource ∧
          (WithLogstash e a o).SetDefault = o.SetDefault ∧
          (WithLogstash e a o).Logstash.Enable = e ∧ (WithLogstash e a o).Logstash.Addr = a) := by
  refine ⟨fun _ => rfl, fun _ => rfl, fun _ => rfl, fun _ _ => rfl, fun _ => ⟨rfl, rfl, rfl, rfl⟩,
    fun _ => ⟨rfl, rfl, rfl, rfl, rfl⟩, fun _ => ⟨rfl, rfl, rfl, rfl, rfl⟩,
    fun _ => ⟨rfl, rfl, rfl, rfl, rfl⟩, fun _ _ => ⟨rfl, rfl, rfl, rfl, rfl, rfl⟩⟩

/-! ## Level names -/

theorem toNat_ofNat_small (n : Nat) (h : n < 0xd800) : (Char.ofNat n).toNat = n := by
  have hv : n.isValidChar := Or.inl h
  simp only [Char.ofNat, hv, dite_true]
  simp [Char.ofNatAux, Char.toNat, Char.ofNat, UInt32.toNat]

theorem char_eq_of_toNat (c d : Char) (h : c.toNat = d.toNat) : c = d := by
  rw [← Char.ofNat_toNat c, ← Char.ofNat_toNat d, h]

theorem toUpperRune_of_code (c : Char) (u : Nat) (hu : 65 ≤ u ∧ u ≤ 90)
    (h : c.toNat = u ∨ c.toNat = u + 32) : toUpperRune c = Char.ofNat u := by
  have hu' := toNat_ofNat_small u (by omega)
  unfold toUpperRune
  split_ifs with a b d
  · have : c.toNat - 32 = u := by omega
    rw [this]
  · omega
  · omega
  · rcases h with h | h
    · apply char_eq_of_toNat; rw [hu']; exact h
    · omega

theorem code_of_toUpperRune (c : Char) (u : Nat) (hu : 65 ≤ u ∧ u ≤ 90) (h1 : u ≠ 73)
    (h2 : u ≠ 83) (h : toUpperRune c = Char.ofNat u) : c.toNat = u ∨ c.toNat = u + 32 := by
  have hu' := toNat_ofNat_small u (by omega)
  unfold toUpperRune at h
  split_ifs at h with a b d
  · have := congrArg Char.toNat h
    rw [toNat_ofNat_small _ (by omega), hu'] at this
    omega
  · have := congrArg Char.toNat h
    rw [hu'] at this
    have h73 : ('I' : Char).toNat = 73 := by decide
    omega
  · have := congrArg Char.toNat h
    rw [hu'] at this
    have h83 : ('S' : Char).toNat = 83 := by decide
    omega
  · have := congrArg Char.toNat h
    rw [hu'] at this
    omega

theorem asciiLower_iff_code (c : Char) (u : Nat) (hu : 65 ≤ u ∧ u ≤ 90) :
    asciiLower c = Char.ofNat (u + 32) ↔ (c.toNat = u ∨ c.toNat = u + 32) := by
  have hu' := toNat_ofNat_small (u + 32) (by omega)
  unfold asciiLower
  split_ifs with a
  · constructor
    · intro h
      have := congrArg Char.toNat h
      rw [toNat_ofNat_small _ (by omega), hu'] at this
      omega
    · intro h
      have : c.toNat = u := by omega
      rw [this]
  · constructor
    · intro h
      have := congrArg Char.toNat h
      rw [hu'] at this
      omega
    · intro h
      rcases h with h | h
      · omega
      · apply char_eq_of_toNat; rw [hu']; exact h

/-- A lower-case match of a letter gives an upper-case match. -/
theorem upper_of_lower (u : Nat) (hu : 65 ≤ u ∧ u ≤ 90) (c : Char)
    (h : asciiLower c = Char.ofNat (u + 32)) : toUpperRune c = Char.ofNat u :=
  toUpperRune_of_code c u hu ((asciiLower_iff_code c u hu).1 h)

/-- An upper-case match of a letter other than `I` and `S` gives a lower-case
match. -/
theorem lower_of_upper (u : Nat) (hu : 65 ≤ u ∧ u ≤ 90) (h1 : u ≠ 73) (h2 : u ≠ 83) (c : Char)
    (h : toUpperRune c = Char.ofNat u) : asciiLower c = Char.ofNat (u + 32) :=
  (asciiLower_iff_code c u hu).2 (code_of_toUpperRune c u hu h1 h2 h)

theorem map_eq_of_forall₂ (f g : Char → Char) (A B : List Char)
    (h : List.Forall₂ (fun a b => ∀ c, f c = a → g c = b) A B) (l : List Char)
    (hl : l.map f = A) : l.map g = B := by
  induction h generalizing l with
  | nil =>
    cases l with
    | nil => rfl
    | cons x xs => simp at hl
  | cons hab _ ih =>
    cases l with
    | nil => simp at hl
    | cons x xs =>
      simp only [List.map_cons, List.cons.injEq] at hl ⊢
      exact ⟨hab x hl.1, ih xs hl.2⟩

theorem ToUpper_debug (l : List Char) :
    ToUpper l = "DEBUG".data ↔ l.map asciiLower = "debug".data := by
  constructor
  · apply map_eq_of_forall₂
    exact .cons (lower_of_upper 68 (by omega) (by omega) (by omega))
      (.cons (lower_of_upper 69 (by omega) (by omega) (by omega))
      (.cons (lower_of_upper 66 (by omega) (by omega) (by omega))
      (.cons (lower_of_upper 85 (by omega) (by omega) (by omega))
      (.cons (lower_of_upper 71 (by omega) (by omega) (by omega)) .nil))))
  · apply map_eq_of_forall₂
    exact .cons (upper_of_lower 68 (by omega)) (.cons (upper_of_lower 69 (by omega))
      (.cons (upper_of_lower 66 (by omega)) (.cons (upper_of_lower 85 (by omega))
      (.cons (upper_of_lower 71 (by omega)) .nil))))

theorem ToUpper_warn (l : List Char) :
    ToUpper l = "WARN".data ↔ l.map asciiLower = "warn".data := by
  constructor
  · apply map_eq_of_forall₂
    exact .cons (lower_of_upper 87 (by omega) (by omega) (by omega))
      (.cons (lower_of_upper 65 (by omega) (by omega) (by omega))
      (.cons (lower_of_upper 82 (by omega) (by omega) (by omega))
      (.cons (lower_of_upper 78 (by omega) (by omega) (by omega)) .nil)))
  · apply map_eq_of_forall₂
    exact .cons (upper_of_lower 87 (by omega)) (.cons (upper_of_lower 65 (by omega))
      (.cons (upper_of_lower 82 (by omega)) (.cons (upper_of_lower 78 (by omega)) .nil)))

theorem ToUpper_error (l : List Char) :
    ToUpper l = "ERROR".data ↔ l.map asciiLower = "error".data := by
  constructor
  · apply map_eq_of_forall₂
    exact .cons (lower_of_upper 69 (by omega) (by omega) (by omega))
      (.cons (lower_of_upper 82 (by omega) (by omega) (by omega))
      (.cons (lower_of_upper 82 (by omega) (by omega) (by omega))
      (.cons (lower_of_upper 79 (by omega) (by omega) (by omega))
      (.cons (lower_of_upper 82 (by omega) (by omega) (by omega)) .nil))))
  · apply map_eq_of_forall₂
    exact .cons (upper_of_lower 69 (by omega)) (.cons (upper_of_lower 82 (by omega))
      (.cons (upper_of_lower 82 (by omega)) (.cons (upper_of_lower 79 (by omega))
      (.cons (upper_of_lower 82 (by omega)) .nil))))

theorem ToUpper_info (l : List Char) (h : l.map asciiLower = "info".data) :
    ToUpper l = "INFO".data := by
  revert h
  apply map_eq_of_forall₂
  exact .cons (upper_of_lower 73 (by omega)) (.cons (upper_of_lower 78 (by omega))
    (.cons (upper_of_lower 70 (by omega)) (.cons (upper_of_lower 79 (by omega)) .nil)))

/-- A name the specification recognises is recognised by `parse`. -/
theorem levelOfName_of_claimedName (name : List Char) (base : Level)
    (h : claimedName name = some base) : levelOfName (ToUpper name) = some base := by
  unfold claimedName at h
  unfold levelOfName
  split_ifs at h with a b c d
  · rw [if_pos ((ToUpper_debug name).2 a)]; exact h
  · have hi := ToUpper_info name b
    rw [if_neg (by rw [hi]; decide), if_pos hi]; exact h
  · have hw := (ToUpper_warn name).2 c
    rw [if_neg (by rw [hw]; decide), if_neg (by rw [hw]; decide), if_pos hw]; exact h
  · have he := (ToUpper_error name).2 d
    rw [if_neg (by rw [he]; decide), if_neg (by rw [he]; decide), if_neg (by rw [he]; decide),
      if_pos he]
    exact h

/-- Without an offset, `parse` and the specification give the same level once
the fallback to Info is applied. -/
theorem levelOfName_getD (name : List Char) :
    (match levelOfName (ToUpper name) with
      | some l => l
      | none => LevelInfo) =
    (match claimedName name with
      | some l => l
      | none => LevelInfo) := by
  unfold claimedName levelOfName
  by_cases a : name.map asciiLower = "debug".data
  · rw [if_pos a, if_pos ((ToUpper_debug name).2 a)]
  · rw [if_neg a, if_neg (fun h => a ((ToUpper_debug name).1 h))]
    by_cases b : name.map asciiLower = "info".data
    · rw [if_pos b, if_pos (ToUpper_info name b)]
    · rw [if_neg b]
      by_cases c : name.map asciiLower = "warn".data
      · have hw := (ToUpper_warn name).2 c
        rw [if_pos c, if_neg (by rw [hw]; decide), if_pos hw]
      · rw [if_neg c, if_neg (fun h => c ((ToUpper_warn name).1 h))]
        by_cases d : name.map asciiLower = "error".data
        · have he := (ToUpper_error name).2 d
          rw [if_pos d, if_neg (by rw [he]; decide), if_pos he]
        · rw [if_neg d, if_neg (fun h => d ((ToUpper_error name).1 h))]
          split_ifs <;> rfl

theorem IndexAny_none (l : List Char) (h : ∀ c ∈ l, c ≠ '+' ∧ c ≠ '-') :
    IndexAny l ['+', '-'] = none := by
  unfold IndexAny
  rw [List.findIdx?_eq_none_iff]
  intro x hx
  have := h x hx
  simp [this.1, this.2]

theorem IndexAny_sign (name digits : List Char) (sign : Char)
    (h : ∀ c ∈ name, c ≠ '+' ∧ c ≠ '-') (hs : sign = '+' ∨ sign = '-') :
    IndexAny (name ++ sign :: digits) ['+', '-'] = some name.length := by
  unfold IndexAny
  induction name with
  | nil => rcases hs with hs | hs <;> simp [hs]
  | cons x xs ih =>
    have hx := h x (List.mem_cons_self _ _)
    have ih' := ih (fun c hc => h c (List.mem_cons_of_mem _ hc))
    simp only [List.cons_append, List.findIdx?_cons, List.length_cons]
    rw [if_neg (by simp [hx.1, hx.2]), List.findIdx?_start_succ, ih']
    simp

theorem wrapInt64_levelOfName (name : List Char) (base : Level)
    (h : levelOfName name = some base) : wrapInt64 (base + 0) = base := by
  unfold levelOfName at h
  split_ifs at h <;> simp at h <;> subst h <;> decide

theorem parse_without_sign (l : Level) (s : String) (h : ∀ c ∈ s.data, c ≠ '+' ∧ c ≠ '-') :
    Level.parse l s =
      (match levelOfName (ToUpper s.data) with
        | none => (l, true)
        | some base => (base, false)) := by
  unfold Level.parse
  simp only [IndexAny_none s.data h]
  cases hb : levelOfName (ToUpper s.data) with
  | none => rfl
  | some base => simp only [wrapInt64_levelOfName _ _ hb]

theorem parse_with_sign (l : Level) (s : String) (name digits : List Char) (sign : Char)
    (hs : s.data = name ++ sign :: digits) (h : ∀ c ∈ name, c ≠ '+' ∧ c ≠ '-')
    (hsign : sign = '+' ∨ sign = '-') :
    Level.parse l s =
      (match Atoi (sign :: digits) with
        | none => (l, true)
        | some off =>
          match levelOfName (ToUpper name) with
          | none => (l, true)
          | some base => (wrapInt64 (base + off), false)) := by
  unfold Level.parse
  simp only [hs, IndexAny_sign name digits sign h hsign, List.take_left, List.drop_left]

/-- C1 (as amended): `WithLevel(s)` sets `Level`, whatever it was before, as
follows.  If `s` holds neither `+` nor `-`, the level is the severity whose
name `s` is in any mix of case, and Info when `s` is no level name.  If `s` is
a name, a first sign and a rest, the level is the severity of the name plus
the signed decimal offset (wrapped to 64 bits) when the name upper-cases to a
level name and sign and rest parse as an `int`, and Info otherwise. -/
theorem C1_WithLevel_level (s : String) (o : LoggerOptions) :
    ((∀ c ∈ s.data, c ≠ '+' ∧ c ≠ '-') → (WithLevel s o).Level = claimedLevel s) ∧
    (∀ (name digits : List Char) (sign : Char), s.data = name ++ sign :: digits →
      (∀ c ∈ name, c ≠ '+' ∧ c ≠ '-') → (sign = '+' ∨ sign = '-') →
        (∀ base, claimedName name = some base → levelOfName (ToUpper name) = some base) ∧
        (∀ base off, levelOfName (ToUpper name) = some base → Atoi (sign :: digits) = some off →
          (WithLevel s o).Level = wrapInt64 (base + off)) ∧
        (Atoi (sign :: digits) = none → (WithLevel s o).Level = LevelInfo) ∧
        (levelOfName (ToUpper name) = none → (WithLevel s o).Level = LevelInfo)) := by
  constructor
  · intro h
    have hp := parse_without_sign 0 s h
    have hg := levelOfName_getD s.data
    simp only [WithLevel, Level.UnmarshalText, claimedLevel]
    rw [hp, ← hg]
    cases levelOfName (ToUpper s.data) <;> simp
  · intro name digits sign hs h hsign
    have hp := parse_with_sign 0 s name digits sign hs h hsign
    refine ⟨fun base hb => levelOfName_of_claimedName name base hb, ?_, ?_, ?_⟩
    · intro base off hb ho
      simp only [WithLevel, Level.UnmarshalText]
      rw [hp, ho, hb]
      simp
    · intro ho
      simp only [WithLevel, Level.UnmarshalText]
      rw [hp, ho]
      simp
    · intro hb
      simp only [WithLevel, Level.UnmarshalText]
      rw [hp, hb]
      cases Atoi (sign :: digits) <;> simp

/-- The amended C1 at `"WaRn"` (no sign: Warn) and at `"info+4"` (name `info`,
offset `+4`: Warn). -/
theorem C1_WithLevel_level_witness :
    (WithLevel "WaRn" defaultOptions).Level = claimedLevel "WaRn" ∧
    claimedLevel "WaRn" = LevelWarn ∧
    (WithLevel "info+4" defaultOptions).Level = wrapInt64 (LevelInfo + 4) ∧
    wrapInt64 (LevelInfo + 4) = LevelWarn :=
  ⟨(C1_WithLevel_level "WaRn" defaultOptions).1 (by decide), by decide,
   ((C1_WithLevel_level "info+4" defaultOptions).2 "info".data "4".data '+' (by decide)
      (by decide) (by decide)).2.1 LevelInfo 4 (by decide) (by decide),
   by decide⟩

/-- C1 as stated fails: `"info+4"` is none of the four level names, in any
case, so the claimed level is Info, but `WithLevel("info+4")` sets Warn. -/
theorem C1_counterexample :
    claimedLevel "info+4" = LevelInfo ∧
    (WithLevel "info+4" defaultOptions).Level = LevelWarn ∧
    (WithLevel "info+4" defaultOptions).Level ≠ claimedLevel "info+4" := by
  decide

/-! ## Handlers -/

mutual
theorem Handler.Enabled_WithAttrs :
    ∀ (h : Handler) (as : List Attr) (v : Level), (h.WithAttrs as).Enabled v = h.Enabled v
  | .json _ _ _, _, _ => rfl
  | .text _ _ _, _, _ => rfl
  | .fanout hs, as, v => by
    simp only [Handler.WithAttrs, Handler.Enabled]
    exact Handler.anyEnabled_withAttrsAll hs as v
theorem Handler.anyEnabled_withAttrsAll :
    ∀ (hs : List Handler) (as : List Attr) (v : Level),
      Handler.anyEnabled (Handler.withAttrsAll hs as) v = Handler.anyEnabled hs v
  | [], _, _ => rfl
  | h :: hs, as, v => by
    simp only [Handler.withAttrsAll, Handler.anyEnabled, Handler.Enabled_WithAttrs h as v,
      Handler.anyEnabled_withAttrsAll hs as v]
end

mutual
theorem Handler.Handle_WithAttrs :
    ∀ (h : Handler) (as : List Attr) (r : Record),
      (h.WithAttrs as).Handle r = h.Handle { r with Attrs := as ++ r.Attrs }
  | .json _ _ _, _, _ => by simp [Handler.WithAttrs, Handler.Handle]
  | .text _ _ _, _, _ => by simp [Handler.WithAttrs, Handler.Handle]
  | .fanout hs, as, r => by
    simp only [Handler.WithAttrs, Handler.Handle]
    exact Handler.handleAll_withAttrsAll hs as r
theorem Handler.handleAll_withAttrsAll :
    ∀ (hs : List Handler) (as : List Attr) (r : Record),
      Handler.handleAll (Handler.withAttrsAll hs as) r
        = Handler.handleAll hs { r with Attrs := as ++ r.Attrs }
  | [], _, _ => rfl
  | h :: hs, as, r => by
    simp only [Handler.withAttrsAll, Handler.handleAll, Handler.Enabled_WithAttrs h as,
      Handler.Handle_WithAttrs h as r, Handler.handleAll_withAttrsAll hs as r]
end

mutual
theorem Handler.sinks_WithAttrs :
    ∀ (h : Handler) (as : List Attr), (h.WithAttrs as).sinks = h.sinks
  | .json _ _ _, _ => rfl
  | .text _ _ _, _ => rfl
  | .fanout hs, as => by
    simp only [Handler.WithAttrs, Handler.sinks]
    exact Handler.sinksAll_withAttrsAll hs as
theorem Handler.sinksAll_withAttrsAll :
    ∀ (hs : List Handler) (as : List Attr),
      Handler.sinksAll (Handler.withAttrsAll hs as) = Handler.sinksAll hs
  | [], _ => rfl
  | h :: hs, as => by
    simp only [Handler.withAttrsAll, Handler.sinksAll, Handler.sinks_WithAttrs h as,
      Handler.sinksAll_withAttrsAll hs as]
end

mutual
theorem Handler.options_WithAttrs :
    ∀ (h : Handler) (as : List Attr), (h.WithAttrs as).options = h.options
  | .json _ _ _, _ => rfl
  | .text _ _ _, _ => rfl
  | .fanout hs, as => by
    simp only [Handler.WithAttrs, Handler.options]
    exact Handler.optionsAll_withAttrsAll hs as
theorem Handler.optionsAll_withAttrsAll :
    ∀ (hs : List Handler) (as : List Attr),
      Handler.optionsAll (Handler.withAttrsAll hs as) = Handler.optionsAll hs
  | [], _ => rfl
  | h :: hs, as => by
    simp only [Handler.withAttrsAll, Handler.optionsAll, Handler.options_WithAttrs h as,
      Handler.optionsAll_withAttrsAll hs as]
end

mutual
theorem Handler.attrs_WithAttrs :
    ∀ (h : Handler) (as : List Attr),
      (h.WithAttrs as).attrs = h.attrs.map (fun chain => chain ++ as)
  | .json _ _ _, _ => rfl
  | .text _ _ _, _ => rfl
  | .fanout hs, as => by
    simp only [Handler.WithAttrs, Handler.attrs]
    exact Handler.attrsAll_withAttrsAll hs as
theorem Handler.attrsAll_withAttrsAll :
    ∀ (hs : List Handler) (as : List Attr),
      Handler.attrsAll (Handler.withAttrsAll hs as)
        = (Handler.attrsAll hs).map (fun chain => chain ++ as)
  | [], _ => rfl
  | h :: hs, as => by
    simp only [Handler.withAttrsAll, Handler.attrsAll, Handler.attrs_WithAttrs h as,
      Handler.attrsAll_withAttrsAll hs as, List.map_append]
end

theorem Logger.log_WithAttrs (h : Handler) (as : List Attr) (r : Record) :
    Logger.log { handler := h.WithAttrs as } r
      = Logger.log { handler := h } { r with Attrs := as ++ r.Attrs } := by
  simp only [Logger.log, Handler.Enabled_WithAttrs, Handler.Handle_WithAttrs]

/-! ## The state -/

theorem deref_New_old (st : State) (h : Handler) (p : Nat) (l : Logger)
    (hp : st.deref p = some l) : (New st h).2.deref p = some l := by
  unfold State.deref at hp ⊢
  have hlt : p < st.loggers.length := by
    by_contra hn
    rw [List.getElem?_eq_none (by omega)] at hp
    exact absurd hp (by simp)
  simp only [New]
  rw [List.getElem?_append_left hlt]
  exact hp

theorem deref_New_new (st : State) (h : Handler) :
    (New st h).2.deref (New st h).1 = some { handler := h } := by
  simp [State.deref, New]

/-! ## The factory -/

theorem NewLogger_disabled (dial : String → String → Except String Conn)
    (opts : List LoggerOption) (st : State) (h : (resolve opts).Logstash.Enable = false) :
    NewLogger dial opts st
      = NewLogger.finish (resolve opts) st (NewLogger.primary (resolve opts)) := by
  simp [NewLogger, h]

theorem NewLogger_dial_ok (dial : String → String → Except String Conn)
    (opts : List LoggerOption) (st : State) (conn : Conn)
    (h : (resolve opts).Logstash.Enable = true)
    (hd : dial "udp" (resolve opts).Logstash.Addr = .ok conn) :
    NewLogger dial opts st
      = NewLogger.finish (resolve opts)
          { st with dialled := st.dialled ++ [("udp", (resolve opts).Logstash.Addr)] }
          (Fanout [NewLogger.primary (resolve opts),
            NewJSONHandler (.conn conn) (NewLogger.handlerOptions (resolve opts))]) := by
  simp [NewLogger, h, hd]

theorem NewLogger_dial_error (dial : String → String → Except String Conn)
    (opts : List LoggerOption) (st : State) (err : String)
    (h : (resolve opts).Logstash.Enable = true)
    (hd : dial "udp" (resolve opts).Logstash.Addr = .error err) :
    NewLogger dial opts st
      = (.fatal ("failed to connect to logstash: " ++ err),
          { st with dialled := st.dialled ++ [("udp", (resolve opts).Logstash.Addr)] }) := by
  simp [NewLogger, h, hd]

theorem finish_outcome (cfg : LoggerOptions) (st : State) (h : Handler) :
    (NewLogger.finish cfg st h).1 = .returned st.loggers.length := rfl

theorem finish_default (cfg : LoggerOptions) (st : State) (h : Handler) :
    Default (NewLogger.finish cfg st h).2
      = if cfg.SetDefault then st.loggers.length else Default st := by
  unfold NewLogger.finish
  cases cfg.SetDefault <;> rfl

theorem finish_deref (cfg : LoggerOptions) (st : State) (h : Handler) :
    (NewLogger.finish cfg st h).2.deref st.loggers.length = some { handler := h } := by
  unfold NewLogger.finish
  cases cfg.SetDefault <;> simp [State.deref, New, SetDefault]

theorem finish_dialled (cfg : LoggerOptions) (st : State) (h : Handler) :
    (NewLogger.finish cfg st h).2.dialled = st.dialled := by
  unfold NewLogger.finish
  cases cfg.SetDefault <;> rfl

/-- Every call of `NewLogger` either returns the next free pointer or is
fatal with the default logger and the allocated loggers as they were. -/
theorem NewLogger_cases (dial : String → String → Except String Conn)
    (opts : List LoggerOption) (st : State) :
    (∃ h st0, st0.loggers = st.loggers ∧ Default st0 = Default st ∧
        NewLogger dial opts st = NewLogger.finish (resolve opts) st0 h ∧
        (h = NewLogger.primary (resolve opts) ∨
         ∃ conn, h = Fanout [NewLogger.primary (resolve opts),
            NewJSONHandler (.conn conn) (NewLogger.handlerOptions (resolve opts))])) ∨
    (∃ msg st0, st0.loggers = st.loggers ∧ Default st0 = Default st ∧
        NewLogger dial opts st = (.fatal msg, st0)) := by
  cases he : (resolve opts).Logstash.Enable with
  | false =>
    exact Or.inl ⟨_, st, rfl, rfl, NewLogger_disabled dial opts st he, Or.inl rfl⟩
  | true =>
    cases hd : dial "udp" (resolve opts).Logstash.Addr with
    | error err =>
      exact Or.inr ⟨_, { st with dialled := st.dialled ++ [("udp", (resolve opts).Logstash.Addr)] },
        rfl, rfl, NewLogger_dial_error dial opts st err he hd⟩
    | ok conn =>
      exact Or.inl ⟨_, { st with dialled := st.dialled ++ [("udp", (resolve opts).Logstash.Addr)] },
        rfl, rfl, NewLogger_dial_ok dial opts st conn he hd, Or.inr ⟨conn, rfl⟩⟩

/-- C4: when `NewLogger` returns, the default logger is unchanged if the
resolved `SetDefault` is false, and is the logger just returned (a newly
allocated one) if it is true; with no options it is installed. -/
theorem C4_default_logger (dial : String → String → Except String Conn)
    (opts : List LoggerOption) (st : State) (l : Nat) (st' : State)
    (h : NewLogger dial opts st = (.returned l, st')) :
    ((resolve opts).SetDefault = false → Default st' = Default st) ∧
    ((resolve opts).SetDefault = true → Default st' = l) ∧
    l = st.loggers.length ∧ (st'.deref l).isSome = true ∧
    (∃ st1, NewLogger dial [] st = (.returned st.loggers.length, st1) ∧
      Default st1 = st.loggers.length) := by
  have hempty : ∃ st1, NewLogger dial [] st = (.returned st.loggers.length, st1) ∧
      Default st1 = st.loggers.length := ⟨_, rfl, rfl⟩
  rcases NewLogger_cases dial opts st with ⟨hh, st0, hl, hd, hn, _⟩ | ⟨msg, st0, _, _, hn⟩
  · rw [hn] at h
    have h1 := congrArg Prod.fst h
    have h2 := congrArg Prod.snd h
    simp only [finish_outcome, Outcome.returned.injEq] at h1
    simp only at h2
    have hdef := finish_default (resolve opts) st0 hh
    have hder := finish_deref (resolve opts) st0 hh
    rw [h2] at hdef hder
    rw [h1] at hder
    refine ⟨?_, ?_, ?_, ?_, hempty⟩
    · intro hs
      rw [hdef, hs, ← hd]
      rfl
    · intro hs
      rw [hdef, hs, ← h1]
      rfl
    · rw [← h1, hl]
    · rw [hder]
      rfl
  · rw [hn] at h
    have h1 := congrArg Prod.fst h
    simp at h1

/-- With `WithSetDefault(false)` the default logger of the sample process
stays logger 0; with no options the new logger 1 becomes the default. -/
theorem C4_default_logger_witness :
    Default (NewLogger noNetwork [WithSetDefault false] sampleState).2 = Default sampleState ∧
    Default (NewLogger noNetwork [] sampleState).2 = 1 :=
  ⟨(C4_default_logger noNetwork [WithSetDefault false] sampleState 1
      (NewLogger noNetwork [WithSetDefault false] sampleState).2 rfl).1 rfl,
   (C4_default_logger noNetwork [] sampleState 1
      (NewLogger noNetwork [] sampleState).2 rfl).2.1 rfl⟩

theorem primary_eq (cfg : LoggerOptions) :
    NewLogger.primary cfg
      = if cfg.IsJSON then Handler.json .Stdout { Level := cfg.Level, AddSource := cfg.AddSource } []
        else Handler.text .Stdout { Level := cfg.Level, AddSource := cfg.AddSource } [] := by
  unfold NewLogger.primary
  cases cfg.IsJSON <;> rfl

theorem log_primary (cfg : LoggerOptions) (r : Record) :
    Logger.log { handler := NewLogger.primary cfg } r
      = if cfg.Level ≤ r.Level then
          [{ dest := .Stdout, enc := if cfg.IsJSON then .JSON else .Text,
             source := cfg.AddSource, level := r.Level, msg := r.Message, attrs := r.Attrs }]
        else [] := by
  unfold NewLogger.primary Logger.log
  cases cfg.IsJSON <;>
    by_cases hv : cfg.Level ≤ r.Level <;>
    simp [NewJSONHandler, NewTextHandler, NewLogger.handlerOptions, Handler.Enabled,
      Handler.Handle, hv]

theorem log_fanout (cfg : LoggerOptions) (conn : Conn) (r : Record) :
    Logger.log { handler := Fanout [NewLogger.primary cfg,
        NewJSONHandler (.conn conn) (NewLogger.handlerOptions cfg)] } r
      = if cfg.Level ≤ r.Level then
          [{ dest := .Stdout, enc := if cfg.IsJSON then .JSON else .Text,
             source := cfg.AddSource, level := r.Level, msg := r.Message, attrs := r.Attrs },
           { dest := .conn conn, enc := .JSON,
             source := cfg.AddSource, level := r.Level, msg := r.Message, attrs := r.Attrs }]
        else [] := by
  unfold NewLogger.primary Logger.log
  cases cfg.IsJSON <;>
    by_cases hv : cfg.Level ≤ r.Level <;>
    simp [Fanout, NewJSONHandler, NewTextHandler, NewLogger.handlerOptions, Handler.Enabled,
      Handler.anyEnabled, Handler.Handle, Handler.handleAll, hv]

/-- C5: with Logstash enabled and the dial successful, the returned logger's
handler is the fan-out of two handlers, the one on standard output in the
chosen encoding and a JSON one on the connection, and every record the first
writes is written to the connection as JSON too; with Logstash disabled the
handler is the one on standard output alone. -/
theorem C5_fanout (dial : String → String → Except String Conn)
    (opts : List LoggerOption) (st : State) :
    (∀ conn, (resolve opts).Logstash.Enable = true →
      dial "udp" (resolve opts).Logstash.Addr = .ok conn →
      ∃ l st' lg, NewLogger dial opts st = (.returned l, st') ∧ st'.deref l = some lg ∧
        lg.handler = Handler.fanout
          [(if (resolve opts).IsJSON then
              Handler.json .Stdout
                { Level := (resolve opts).Level, AddSource := (resolve opts).AddSource } []
            else
              Handler.text .Stdout
                { Level := (resolve opts).Level, AddSource := (resolve opts).AddSource } []),
           Handler.json (.conn conn)
             { Level := (resolve opts).Level, AddSource := (resolve opts).AddSource } []] ∧
        lg.handler.sinks
          = [(Writer.Stdout, if (resolve opts).IsJSON then Encoding.JSON else Encoding.Text),
             (Writer.conn conn, Encoding.JSON)] ∧
        ∀ r : Record,
          lg.log r = Logger.log { handler := NewLogger.primary (resolve opts) } r ++
            (if (resolve opts).Level ≤ r.Level then
              [{ dest := .conn conn, enc := .JSON, source := (resolve opts).AddSource,
                 level := r.Level, msg := r.Message, attrs := r.Attrs }]
             else []) ∧
          (Logger.log { handler := NewLogger.primary (resolve opts) } r ≠ [] →
            ({ dest := .conn conn, enc := .JSON, source := (resolve opts).AddSource,
               level := r.Level, msg := r.Message, attrs := r.Attrs } : Line) ∈ lg.log r)) ∧
    ((resolve opts).Logstash.Enable = false →
      ∃ l st' lg, NewLogger dial opts st = (.returned l, st') ∧ st'.deref l = some lg ∧
        lg.handler =
          (if (resolve opts).IsJSON then
              Handler.json .Stdout
                { Level := (resolve opts).Level, AddSource := (resolve opts).AddSource } []
            else
              Handler.text .Stdout
                { Level := (resolve opts).Level, AddSource := (resolve opts).AddSource } []) ∧
        lg.handler.sinks
          = [(Writer.Stdout, if (resolve opts).IsJSON then Encoding.JSON else Encoding.Text)]) := by
  constructor
  · intro conn he hd
    have hn := NewLogger_dial_ok dial opts st conn he hd
    refine ⟨st.loggers.length, (NewLogger dial opts st).2,
      { handler := Fanout [NewLogger.primary (resolve opts),
          NewJSONHandler (.conn conn) (NewLogger.handlerOptions (resolve opts))] },
      ?_, ?_, ?_, ?_, ?_⟩
    · rw [hn]
      rfl
    · rw [hn]
      exact finish_deref (resolve opts)
        { st with dialled := st.dialled ++ [("udp", (resolve opts).Logstash.Addr)] } _
    · simp only [Fanout, primary_eq, NewJSONHandler, NewLogger.handlerOptions]
    · simp only [Fanout, primary_eq, NewJSONHandler, NewLogger.handlerOptions]
      cases (resolve opts).IsJSON <;> rfl
    · intro r
      rw [log_fanout, log_primary]
      by_cases hv : (resolve opts).Level ≤ r.Level <;> simp [hv]
  · intro he
    have hn := NewLogger_disabled dial opts st he
    refine ⟨st.loggers.length, (NewLogger dial opts st).2,
      { handler := NewLogger.primary (resolve opts) }, ?_, ?_, ?_, ?_⟩
    · rw [hn]
      rfl
    · rw [hn]
      exact finish_deref (resolve opts) st _
    · simp only [primary_eq]
    · simp only [primary_eq]
      cases (resolve opts).IsJSON <;> rfl

/-- With `WithJSON(false), WithLogstash(true, "logs:5000")` on an open network
a Warn record goes to standard output as text and to the connection as JSON. -/
theorem C5_fanout_witness :
    ∃ l st' lg, NewLogger openNetwork [WithJSON false, WithLogstash true "logs:5000"] sampleState
        = (.returned l, st') ∧ st'.deref l = some lg ∧
      lg.handler.sinks = [(Writer.Stdout, Encoding.Text),
        (Writer.conn { network := "udp", address := "logs:5000" }, Encoding.JSON)] ∧
      lg.log { Level := LevelWarn, Message := "disk full", Attrs := [] }
        = [{ dest := .Stdout, enc := .Text, source := true, level := LevelWarn,
             msg := "disk full", attrs := [] },
           { dest := .conn { network := "udp", address := "logs:5000" }, enc := .JSON,
             source := true, level := LevelWarn, msg := "disk full", attrs := [] }] := by
  obtain ⟨l, st', lg, h1, h2, h3, h4, h5⟩ :=
    (C5_fanout openNetwork [WithJSON false, WithLogstash true "logs:5000"] sampleState).1
      { network := "udp", address := "logs:5000" } rfl rfl
  refine ⟨l, st', lg, h1, h2, h4, ?_⟩
  rw [(h5 _).1, log_primary]
  decide

/-- C6: `NewLogger` is fatal exactly when the resolved `Logstash.Enable` is
true and the dial of `Logstash.Addr` over UDP fails, and then neither the
default logger nor the allocated loggers change; in every other case it
returns a logger; with Logstash disabled no dial is made, with Logstash
enabled exactly one. -/
theorem C6_fatal_iff (dial : String → String → Except String Conn)
    (opts : List LoggerOption) (st : State) :
    ((∃ msg, (NewLogger dial opts st).1 = .fatal msg) ↔
      ((resolve opts).Logstash.Enable = true ∧
        ∃ err, dial "udp" (resolve opts).Logstash.Addr = .error err)) ∧
    (∀ msg, (NewLogger dial opts st).1 = .fatal msg →
      Default (NewLogger dial opts st).2 = Default st ∧
      (NewLogger dial opts st).2.loggers = st.loggers) ∧
    (¬ ((resolve opts).Logstash.Enable = true ∧
        ∃ err, dial "udp" (resolve opts).Logstash.Addr = .error err) →
      (NewLogger dial opts st).1 = .returned st.loggers.length ∧
      ((NewLogger dial opts st).2.deref st.loggers.length).isSome = true) ∧
    ((resolve opts).Logstash.Enable = false →
      (NewLogger dial opts st).2.dialled = st.dialled) ∧
    ((resolve opts).Logstash.Enable = true →
      (NewLogger dial opts st).2.dialled
        = st.dialled ++ [("udp", (resolve opts).Logstash.Addr)]) := by
  cases he : (resolve opts).Logstash.Enable with
  | false =>
    have hn := NewLogger_disabled dial opts st he
    refine ⟨?_, ?_, ?_, ?_, ?_⟩
    · rw [hn, finish_outcome]
      simp
    · intro msg hm
      rw [hn, finish_outcome] at hm
      simp at hm
    · intro _
      rw [hn, finish_outcome, finish_deref]
      exact ⟨rfl, rfl⟩
    · intro _
      rw [hn, finish_dialled]
    · intro hc
      simp at hc
  | true =>
    cases hd : dial "udp" (resolve opts).Logstash.Addr with
    | error err =>
      have hn := NewLogger_dial_error dial opts st err he hd
      refine ⟨?_, ?_, ?_, ?_, ?_⟩
      · rw [hn]
        simp
      · intro msg _
        rw [hn]
        exact ⟨rfl, rfl⟩
      · intro hc
        exact absurd ⟨rfl, err, rfl⟩ hc
      · intro hc
        simp at hc
      · intro _
        rw [hn]
    | ok conn =>
      have hn := NewLogger_dial_ok dial opts st conn he hd
      refine ⟨?_, ?_, ?_, ?_, ?_⟩
      · rw [hn, finish_outcome]
        simp
      · intro msg hm
        rw [hn, finish_outcome] at hm
        simp at hm
      · intro _
        rw [hn, finish_outcome]
        exact ⟨rfl, by
          rw [show st.loggers.length = ({ st with dialled := st.dialled ++
            [("udp", (resolve opts).Logstash.Addr)] } : State).loggers.length from rfl,
            finish_deref]
          rfl⟩
      · intro hc
        simp at hc
      · intro _
        rw [hn, finish_dialled]

/-- With `WithLogstash(true, "nowhere:1")` on a network where no dial succeeds
the call is fatal and logger 0 stays the default; with
`WithLogstash(false, "nowhere:1")` it returns logger 1 and dials nothing. -/
theorem C6_fatal_iff_witness :
    (∃ msg, (NewLogger noNetwork [WithLogstash true "nowhere:1"] sampleState).1 = .fatal msg) ∧
    Default (NewLogger noNetwork [WithLogstash true "nowhere:1"] sampleState).2 = 0 ∧
    (NewLogger noNetwork [WithLogstash false "nowhere:1"] sampleState).1 = .returned 1 ∧
    (NewLogger noNetwork [WithLogstash false "nowhere:1"] sampleState).2.dialled = [] :=
  ⟨(C6_fatal_iff noNetwork [WithLogstash true "nowhere:1"] sampleState).1.2
      ⟨rfl, "network is unreachable", rfl⟩,
   ((C6_fatal_iff noNetwork [WithLogstash true "nowhere:1"] sampleState).2.1
      _ rfl).1,
   ((C6_fatal_iff noNetwork [WithLogstash false "nowhere:1"] sampleState).2.2.1
      (fun hc => absurd hc.1 (by decide))).1,
   (C6_fatal_iff noNetwork [WithLogstash false "nowhere:1"] sampleState).2.2.2.1 rfl⟩

/-- C9: the resolved level is the minimum severity of the logger `NewLogger`
returns: a record is written exactly when its level is at least the resolved
`Level`, every handler inside the logger was built with the same resolved
`Level` and `AddSource`, and every line written carries that source setting.
After `NewLogger(WithLevel("warn"), WithJSON(false))` an Info record writes
nothing and a Warn record writes one text line on standard output. -/
theorem C9_threshold (dial : String → String → Except String Conn)
    (opts : List LoggerOption) (st : State) :
    (∀ l st', NewLogger dial opts st = (.returned l, st') →
      ∃ lg, st'.deref l = some lg ∧
        (∀ r : Record, lg.log r ≠ [] ↔ (resolve opts).Level ≤ r.Level) ∧
        (∀ ho ∈ lg.handler.options,
          ho = { Level := (resolve opts).Level, AddSource := (resolve opts).AddSource }) ∧
        lg.handler.options.length = (if (resolve opts).Logstash.Enable then 2 else 1) ∧
        (∀ (r : Record) (line : Line), line ∈ lg.log r →
          line.source = (resolve opts).AddSource ∧ line.level = r.Level)) ∧
    (∃ l st' lg, NewLogger dial [WithLevel "warn", WithJSON false] st = (.returned l, st') ∧
      st'.deref l = some lg ∧
      ∀ (msg : String) (attrs : List Attr),
        lg.log { Level := LevelInfo, Message := msg, Attrs := attrs } = [] ∧
        lg.log { Level := LevelWarn, Message := msg, Attrs := attrs }
          = [{ dest := .Stdout, enc := .Text, source := true, level := LevelWarn,
               msg := msg, attrs := attrs }]) := by
  constructor
  · intro l st' h
    cases he : (resolve opts).Logstash.Enable with
    | false =>
      have hn := NewLogger_disabled dial opts st he
      rw [hn] at h
      have h1 := congrArg Prod.fst h
      have h2 := congrArg Prod.snd h
      simp only [finish_outcome, Outcome.returned.injEq] at h1
      simp only at h2
      refine ⟨{ handler := NewLogger.primary (resolve opts) }, ?_, ?_, ?_, ?_, ?_⟩
      · rw [← h2, ← h1]
        exact finish_deref _ _ _
      · intro r
        rw [log_primary]
        by_cases hv : (resolve opts).Level ≤ r.Level <;> simp [hv]
      · intro ho hho
        rw [primary_eq] at hho
        cases hj : (resolve opts).IsJSON <;> simp [hj, Handler.options] at hho <;> exact hho
      · rw [primary_eq]
        cases hj : (resolve opts).IsJSON <;> simp [Handler.options]
      · intro r line hl
        rw [log_primary] at hl
        by_cases hv : (resolve opts).Level ≤ r.Level
        · simp [hv] at hl
          subst hl
          exact ⟨rfl, rfl⟩
        · simp [hv] at hl
    | true =>
      cases hd : dial "udp" (resolve opts).Logstash.Addr with
      | error err =>
        rw [NewLogger_dial_error dial opts st err he hd] at h
        have h1 := congrArg Prod.fst h
        simp at h1
      | ok conn =>
        have hn := NewLogger_dial_ok dial opts st conn he hd
        rw [hn] at h
        have h1 := congrArg Prod.fst h
        have h2 := congrArg Prod.snd h
        simp only [finish_outcome, Outcome.returned.injEq] at h1
        simp only at h2
        refine ⟨{ handler := Fanout [NewLogger.primary (resolve opts),
          NewJSONHandler (.conn conn) (NewLogger.handlerOptions (resolve opts))] },
          ?_, ?_, ?_, ?_, ?_⟩
        · rw [← h2, ← h1]
          exact finish_deref _ _ _
        · intro r
          rw [log_fanout]
          by_cases hv : (resolve opts).Level ≤ r.Level <;> simp [hv]
        · intro ho hho
          rw [primary_eq] at hho
          cases hj : (resolve opts).IsJSON <;>
            simp [hj, Fanout, NewJSONHandler, NewLogger.handlerOptions, Handler.options,
              Handler.optionsAll] at hho <;> exact hho
        · rw [primary_eq]
          cases hj : (resolve opts).IsJSON <;>
            simp [Fanout, NewJSONHandler, Handler.options, Handler.optionsAll]
        · intro r line hl
          rw [log_fanout] at hl
          by_cases hv : (resolve opts).Level ≤ r.Level
          · simp [hv] at hl
            rcases hl with hl | hl <;> subst hl <;> exact ⟨rfl, rfl⟩
          · simp [hv] at hl
  · have he : (resolve [WithLevel "warn", WithJSON false]).Logstash.Enable = false := rfl
    have hn := NewLogger_disabled dial [WithLevel "warn", WithJSON false] st he
    refine ⟨st.loggers.length, (NewLogger dial [WithLevel "warn", WithJSON false] st).2,
      { handler := NewLogger.primary (resolve [WithLevel "warn", WithJSON false]) }, ?_, ?_, ?_⟩
    · rw [hn]
      rfl
    · rw [hn]
      exact finish_deref _ _ _
    · intro msg attrs
      have hl : (resolve [WithLevel "warn", WithJSON false]).Level = 4 := by decide
      have hj : (resolve [WithLevel "warn", WithJSON false]).IsJSON = false := rfl
      have hs : (resolve [WithLevel "warn", WithJSON false]).AddSource = true := rfl
      rw [log_primary, log_primary, hl, hj, hs]
      simp [LevelInfo, LevelWarn]

/-- With `WithLevel("error")` on the sample process a Warn record writes
nothing and an Error record writes one line. -/
theorem C9_threshold_witness :
    ∃ lg, (NewLogger noNetwork [WithLevel "error"] sampleState).2.deref 1 = some lg ∧
      lg.log { Level := LevelWarn, Message := "slow", Attrs := [] } = [] ∧
      lg.log { Level := LevelError, Message := "down", Attrs := [] } ≠ [] := by
  obtain ⟨lg, h1, h2, _⟩ :=
    (C9_threshold noNetwork [WithLevel "error"] sampleState).1 1
      (NewLogger noNetwork [WithLevel "error"] sampleState).2 rfl
  refine ⟨lg, h1, ?_, ?_⟩
  · by_contra hc
    exact absurd ((h2 _).1 hc) (by decide)
  · exact (h2 _).2 (by decide)

/-! ## Attribute helpers -/

theorem With_of_deref (st : State) (logger : Nat) (base : Logger) (attr : Attr)
    (h : st.deref logger = some base) :
    Logger.With st logger attr = some (New st (base.handler.WithAttrs [attr])) := by
  simp [Logger.With, h]

/-- The loop of `WithDefaultAttrs` only allocates: the default logger, the
dial log and every logger allocated before are as they were. -/
theorem WithDefaultAttrs_frame (attrs : List Attr) :
    ∀ (st : State) (logger q : Nat) (st' : State),
      WithDefaultAttrs st logger attrs = some (q, st') →
      Default st' = Default st ∧ st'.dialled = st.dialled ∧
      ∀ p l, st.deref p = some l → st'.deref p = some l := by
  induction attrs with
  | nil =>
    intro st logger q st' h
    simp only [WithDefaultAttrs, Option.some.injEq, Prod.mk.injEq] at h
    rw [← h.2]
    exact ⟨rfl, rfl, fun _ _ hp => hp⟩
  | cons a rest ih =>
    intro st logger q st' h
    unfold WithDefaultAttrs at h
    cases hb : st.deref logger with
    | none => simp [Logger.With, hb] at h
    | some base =>
      rw [With_of_deref st logger base a hb] at h
      obtain ⟨h1, h2, h3⟩ := ih _ _ _ _ h
      exact ⟨h1, h2, fun p l hp => h3 p l (deref_New_old st _ p l hp)⟩

theorem WithAttrs_loop_eq (attrs : List Attr) :
    ∀ (st : State) (logger : Nat),
      WithAttrs.loop st logger attrs = WithDefaultAttrs st logger attrs := by
  induction attrs with
  | nil => intro st logger; rfl
  | cons a rest ih =>
    intro st logger
    unfold WithAttrs.loop WithDefaultAttrs
    cases Logger.With st logger a with
    | none => rfl
    | some r => exact ih _ _

theorem WithDefaultAttrs_spec (attrs : List Attr) :
    ∀ (st : State) (logger : Nat) (base : Logger), st.deref logger = some base →
      ∃ q st' derived, WithDefaultAttrs st logger attrs = some (q, st') ∧
        st'.deref q = some derived ∧
        derived.handler.attrs = base.handler.attrs.map (fun chain => chain ++ attrs) ∧
        derived.handler.sinks = base.handler.sinks ∧
        derived.handler.options = base.handler.options ∧
        (∀ r : Record, derived.log r = base.log { r with Attrs := attrs ++ r.Attrs }) := by
  induction attrs with
  | nil =>
    intro st logger base h
    exact ⟨logger, st, base, rfl, h, by simp, rfl, rfl, fun r => rfl⟩
  | cons a rest ih =>
    intro st logger base h
    obtain ⟨q, st', derived, h1, h2, h3, h4, h5, h6⟩ :=
      ih (New st (base.handler.WithAttrs [a])).2 (New st (base.handler.WithAttrs [a])).1
        { handler := base.handler.WithAttrs [a] } (deref_New_new st _)
    refine ⟨q, st', derived, ?_, h2, ?_, ?_, ?_, ?_⟩
    · unfold WithDefaultAttrs
      rw [With_of_deref st logger base a h]
      exact h1
    · rw [h3, Handler.attrs_WithAttrs]
      simp [List.map_map, Function.comp_def]
    · rw [h4, Handler.sinks_WithAttrs]
    · rw [h5, Handler.options_WithAttrs]
    · intro r
      rw [h6, Logger.log_WithAttrs]
      simp

/-- C7: for a pointer to a logger and any attributes, `WithDefaultAttrs`
returns a logger whose handlers hold the base logger's attributes followed by
the given ones in order (none dropped), on the same destinations with the
same options; a record logged through it is written as the base logger would
write it with the attributes put before the record's own.  Every logger
allocated before the call, the base among them, and the default logger are
unchanged, and with no attributes the result is the base pointer itself. -/
theorem C7_WithDefaultAttrs (st : State) (logger : Nat) (base : Logger) (attrs : List Attr)
    (h : st.deref logger = some base) :
    ∃ q st' derived, WithDefaultAttrs st logger attrs = some (q, st') ∧
      st'.deref q = some derived ∧
      derived.handler.attrs = base.handler.attrs.map (fun chain => chain ++ attrs) ∧
      derived.handler.sinks = base.handler.sinks ∧
      derived.handler.options = base.handler.options ∧
      (∀ r : Record, derived.log r = base.log { r with Attrs := attrs ++ r.Attrs }) ∧
      st'.deref logger = some base ∧
      (∀ p l, st.deref p = some l → st'.deref p = some l) ∧
      Default st' = Default st ∧
      (attrs = [] → q = logger ∧ st' = st) := by
  obtain ⟨q, st', derived, h1, h2, h3, h4, h5, h6⟩ := WithDefaultAttrs_spec attrs st logger base h
  obtain ⟨f1, _, f3⟩ := WithDefaultAttrs_frame attrs st logger q st' h1
  refine ⟨q, st', derived, h1, h2, h3, h4, h5, h6, f3 logger base h, f3, f1, ?_⟩
  intro hnil
  subst hnil
  simp only [WithDefaultAttrs, Option.some.injEq, Prod.mk.injEq] at h1
  exact ⟨h1.1.symm, h1.2.symm⟩

/-- On the sample process, attaching `req_id=abc` and `req_id=xyz` to logger 0
gives logger 2, which writes both attributes in that order; logger 0 still
writes none. -/
theorem C7_WithDefaultAttrs_witness :
    ∃ q st' derived,
      WithDefaultAttrs sampleState 0
        [{ Key := "req_id", Value := "abc" }, { Key := "req_id", Value := "xyz" }]
        = some (q, st') ∧
      st'.deref q = some derived ∧
      derived.handler.attrs
        = [[{ Key := "req_id", Value := "abc" }, { Key := "req_id", Value := "xyz" }]] ∧
      st'.deref 0 = sampleState.deref 0 := by
  obtain ⟨q, st', derived, h1, h2, h3, _, _, _, h7, _⟩ :=
    C7_WithDefaultAttrs sampleState 0
      { handler := NewTextHandler .Stdout { Level := LevelInfo, AddSource := false } }
      [{ Key := "req_id", Value := "abc" }, { Key := "req_id", Value := "xyz" }] rfl
  exact ⟨q, st', derived, h1, h2, h3, h7⟩

/-- C10: `WithAttrs(ctx, attrs...)` is `WithDefaultAttrs(L(ctx), attrs...)`;
it returns whenever the logger of the context exists; and after it `L(ctx)`
is the same logger as before, the default logger is the same, and every
logger allocated before is unchanged. -/
theorem C10_WithAttrs (st : State) (ctx : Context) (attrs : List Attr) :
    WithAttrs st ctx attrs = WithDefaultAttrs st (L st ctx) attrs ∧
    (∀ base, st.deref (L st ctx) = some base → ∃ q st', WithAttrs st ctx attrs = some (q, st')) ∧
    (∀ q st', WithAttrs st ctx attrs = some (q, st') →
      L st' ctx = L st ctx ∧ Default st' = Default st ∧
      st'.deref (L st' ctx) = st.deref (L st ctx) ∧
      ∀ p l, st.deref p = some l → st'.deref p = some l) := by
  have heq : WithAttrs st ctx attrs = WithDefaultAttrs st (L st ctx) attrs :=
    WithAttrs_loop_eq attrs st (L st ctx)
  refine ⟨heq, ?_, ?_⟩
  · intro base hb
    obtain ⟨q, st', _, h1, _⟩ := WithDefaultAttrs_spec attrs st (L st ctx) base hb
    exact ⟨q, st', heq.trans h1⟩
  · intro q st' h
    rw [heq] at h
    obtain ⟨f1, _, f3⟩ := WithDefaultAttrs_frame attrs st (L st ctx) q st' h
    have hL : L st' ctx = L st ctx := by
      unfold L loggerFromContext
      cases ctx.logger with
      | none => exact f1
      | some p => rfl
    refine ⟨hL, f1, ?_, f3⟩
    rw [hL]
    cases hb : st.deref (L st ctx) with
    | some base => exact f3 _ _ hb
    | none =>
      cases attrs with
      | nil =>
        simp only [WithDefaultAttrs, Option.some.injEq, Prod.mk.injEq] at h
        rw [← h.2]
        exact hb
      | cons a rest =>
        unfold WithDefaultAttrs at h
        simp [Logger.With, hb] at h

/-- On the sample process a context without a logger resolves to the default
logger 0, before and after `WithAttrs` attaches `user=ann`. -/
theorem C10_WithAttrs_witness :
    ∃ q st', WithAttrs sampleState { logger := none } [{ Key := "user", Value := "ann" }]
        = some (q, st') ∧
      L st' { logger := none } = L sampleState { logger := none } ∧
      Default st' = Default sampleState := by
  obtain ⟨q, st', h⟩ :=
    (C10_WithAttrs sampleState { logger := none } [{ Key := "user", Value := "ann" }]).2.1
      { handler := NewTextHandler .Stdout { Level := LevelInfo, AddSource := false } } rfl
  have hf := (C10_WithAttrs sampleState { logger := none }
    [{ Key := "user", Value := "ann" }]).2.2 q st' h
  exact ⟨q, st', h, hf.1, hf.2.1⟩

end logging
